import Mathlib

/-!
Verification of the Formal-SDD refinement engine against its specification.

The Python sources under `src/` are shallowly embedded: Python strings become
`List Char`, pure methods become Lean functions, the effectful verifier is
embedded by passing its environment outcomes explicitly, and the refinement
loop becomes a fuel-indexed recursion on the remaining step budget.

The shared data-record module `src/lmgpa/state_manager.py` is imported by the
shipped code but is not itself shipped; the records it declares (`Status`,
`VerificationResult`, `Artifact`, history entries) are modelled from spec §3,
as marked on each such definition.
-/

set_option autoImplicit false

namespace FormalSDD

/-- Python strings are modelled as lists of characters. -/
abbrev Str := List Char

/-- Whitespace test used by Python `str.strip` (modelled with
`Char.isWhitespace`; the outputs involved are ASCII). -/
def isWhite (c : Char) : Bool := c.isWhitespace

/-- Python `s.strip()`: remove whitespace from both ends. -/
def strip (s : Str) : Str :=
  ((s.dropWhile isWhite).reverse.dropWhile isWhite).reverse

/-- Python `s.lower()` (modelled with `Char.toLower`; the patterns scanned
for are ASCII). -/
def lowerStr (s : Str) : Str := s.map Char.toLower

/-- `startsWith pat s` holds when `pat` is a prefix of `s`. -/
def startsWith : Str → Str → Bool
  | [], _ => true
  | _ :: _, [] => false
  | p :: ps, c :: cs => p == c && startsWith ps cs

/-- Python `pat in s`: `pat` occurs as a contiguous substring of `s`. -/
def containsSub (pat : Str) : Str → Bool
  | [] => startsWith pat []
  | c :: cs => startsWith pat (c :: cs) || containsSub pat cs

/-- Python `s.count(pat)`, fuelled: number of non-overlapping occurrences of
`pat`, scanning left to right and skipping past each match.  The scan
consumes at least one character per step, so any `fuel ≥ s.length` gives the
same result; the fuel keeps the recursion structural (and hence
kernel-reducible). -/
def countSubAux (pat : Str) : Nat → Str → Nat
  | 0, _ => 0
  | _, [] => 0
  | fuel + 1, c :: cs =>
    if startsWith pat (c :: cs) then 1 + countSubAux pat fuel (cs.drop (pat.length - 1))
    else countSubAux pat fuel cs

/-- Python `s.count(pat)`: non-overlapping occurrence count. -/
def countSub (pat : Str) (s : Str) : Nat := countSubAux pat s.length s

/-- Modelled from the spec: `Status` from the absent `state_manager.py`
(spec §3), the closed three-way outcome enumeration.  The shipped code spells
the logical-error case `ERR_LG`. -/
inductive Status
  | OK
  | ERR_LG
  | ERR_TOOL
deriving DecidableEq

/-- Modelled from the spec: `VerificationResult` from the absent
`state_manager.py` (spec §3).  Construction sites in the shipped code omit
some fields, so the record carries defaults: string fields default to the
empty string, and `unsolvedGoalsCount` defaults to `1` — the nonzero choice
is forced by spec §8's success invariant (`status == OK ⟺
unsolvedGoalCount == 0` under the classifier's own output), since the
classifier's `ERR_TOOL` construction sites omit this field. -/
structure VerificationResult where
  status : Status
  summary : Str := []
  feedback : Str := []
  rawStdout : Str := []
  rawStderr : Str := []
  unsolvedGoalsCount : Nat := 1
deriving DecidableEq

/-- Modelled from the spec: `Artifact` from the absent `state_manager.py`
(spec §3): candidate program, proof script, language tag. -/
structure Artifact where
  programCode : Str
  proofScript : Str
  language : Str
deriving DecidableEq

/-- Characters of `s` strictly before the first newline (the `(.*)` capture
of a non-DOTALL Python regex). -/
def takeToEol (s : Str) : Str := s.takeWhile (fun c => !(c == '\n'))

/-- Source: `FeedbackParser._count_unsolved_goals`
(`src/verification/feedback_parser.py:109-118`): if the output contains
"unsolved goals", the maximum of 1 and the number of "case " occurrences,
else the default penalty 1. -/
def count_unsolved_goals (output : Str) : Nat :=
  if containsSub "unsolved goals".toList output then
    max 1 (countSub "case ".toList output)
  else 1

/-- Source: step 1 of `FeedbackParser._extract_error_context`
(`feedback_parser.py:129-132`): the first capture group of the Python regex
`(?:error:|Error:)\s*(.*)` — at the leftmost occurrence of the marker
"error:" or "Error:", skip whitespace (including newlines, as `\s*` does)
and take the rest of that line. -/
def find_error_line : Str → Option Str
  | [] => none
  | c :: cs =>
    if startsWith "error:".toList (c :: cs) || startsWith "Error:".toList (c :: cs) then
      some (takeToEol (((c :: cs).drop 6).dropWhile isWhite))
    else find_error_line cs

/-- Suffix of `s` after the first occurrence of `pat` (`none` when `pat`
does not occur). -/
def findAfter (pat : Str) : Str → Option Str
  | [] => if startsWith pat [] then some [] else none
  | c :: cs =>
    if startsWith pat (c :: cs) then some ((c :: cs).drop pat.length)
    else findAfter pat cs

/-- Characters of `s` strictly before the first blank line (first occurrence
of two consecutive newlines), or all of `s` when there is none — the lazy
group of the Python regex `unsolved goals\n(.*?)(?:\n\n|\Z)` with DOTALL. -/
def upToBlank : Str → Str
  | [] => []
  | c :: cs => if startsWith "\n\n".toList (c :: cs) then [] else c :: upToBlank cs

/-- Source: the truncation in `_extract_error_context`
(`feedback_parser.py:142-143`): snippets longer than 1000 characters are cut
and marked. -/
def truncateSnippet (s : Str) : Str :=
  if 1000 < s.length then s.take 1000 ++ "... [truncated]".toList else s

/-- Python `s[-n:]`: the last `n` characters (all of `s` when shorter). -/
def lastChars (n : Nat) (s : Str) : Str := s.drop (s.length - n)

/-- Source: `FeedbackParser._extract_error_context`
(`feedback_parser.py:120-152`): collect the compiler-error line (if any) and
the proof-state block (if "unsolved goals" occurs and is followed by a
newline), fall back to the last 800 characters when neither was produced,
and join the collected lines with newlines. -/
def extract_error_context (output : Str) : Str :=
  let lines1 : List Str :=
    match find_error_line output with
    | some g => ["Compiler Error: ".toList ++ g]
    | none => []
  let lines2 : List Str :=
    if containsSub "unsolved goals".toList output then
      match findAfter "unsolved goals\n".toList output with
      | some rest =>
        ["Proof State at Failure:\n".toList ++ truncateSnippet (strip (upToBlank rest))]
      | none => []
    else []
  let feedbackLines := lines1 ++ lines2
  let finalLines :=
    if feedbackLines.isEmpty then
      ["Raw Output Tail:\n".toList ++ strip (lastChars 800 output)]
    else feedbackLines
  List.intercalate "\n".toList finalLines

/-- Source: `feedback_parser.py:41`: the combined output
`(stdout + "\n" + stderr).strip()` analysed by the classifier. -/
def full_output (stdout stderr : Str) : Str := strip (stdout ++ '\n' :: stderr)

/-- Source: `FeedbackParser.parse` (`feedback_parser.py:29-107`): exit code 0
is OK; otherwise tool-failure indicators in the lowercased combined output
give `ERR_TOOL` (three indicator groups, checked in order); otherwise the
output is a logical error with a counted goal estimate, a summary label and
structured feedback. -/
def parse (stdout stderr : Str) (returnCode : Int) : VerificationResult :=
  let fullOutput := full_output stdout stderr
  if returnCode = 0 then
    { status := Status.OK
      summary := "Verification Successful".toList
      feedback := "The proof is correct. No errors found.".toList
      rawStdout := stdout
      rawStderr := stderr
      unsolvedGoalsCount := 0 }
  else
    let lowerOutput := lowerStr fullOutput
    if containsSub "timeout".toList lowerOutput || containsSub "deadline".toList lowerOutput then
      { status := Status.ERR_TOOL
        summary := "Timeout".toList
        feedback := "The verifier timed out. The proof may be inefficient or infinite looping.".toList
        rawStderr := stderr }
    else if containsSub "out of memory".toList lowerOutput
        || containsSub "segmentation fault".toList lowerOutput then
      { status := Status.ERR_TOOL
        summary := "Resource Exhaustion".toList
        feedback := "System ran out of memory.".toList
        rawStderr := stderr }
    else if containsSub "unknown package".toList lowerOutput
        || containsSub "no such file".toList lowerOutput then
      { status := Status.ERR_TOOL
        summary := "Environment Error".toList
        feedback := "Missing imports or dependency configuration error.".toList
        rawStderr := stderr }
    else
      let unsolvedGoals := count_unsolved_goals fullOutput
      let structuredFeedback := extract_error_context fullOutput
      let errorSummary :=
        if containsSub "tactic".toList lowerOutput && containsSub "failed".toList lowerOutput then
          "Tactic Failure".toList
        else if containsSub "type mismatch".toList lowerOutput then
          "Type Mismatch".toList
        else if containsSub "unknown identifier".toList lowerOutput then
          "Syntax/Scope Error".toList
        else
          "Logical Error".toList
      { status := Status.ERR_LG
        summary := errorSummary ++ " (".toList ++ (toString unsolvedGoals).toList
          ++ " goals left)".toList
        feedback := structuredFeedback
        rawStdout := stdout
        rawStderr := stderr
        unsolvedGoalsCount := unsolvedGoals }

/-- Suffix of `s` starting at its first newline (empty when `s` has none) —
what survives of the current line once a Python `re.sub(r'--.*', '')` match
has consumed the rest of it. -/
def suffixFromEol (s : Str) : Str := s.dropWhile (fun c => !(c == '\n'))

/-- Fuelled scan for the comment stripping: each step consumes at least one
character, so any `fuel ≥ s.length` gives the same result; the fuel keeps
the recursion structural (and hence kernel-reducible). -/
def removeLineCommentsAux : Nat → Str → Str
  | 0, _ => []
  | _, [] => []
  | fuel + 1, c :: cs =>
    if startsWith "--".toList (c :: cs) then removeLineCommentsAux fuel (suffixFromEol cs)
    else c :: removeLineCommentsAux fuel cs

/-- Source: the comment stripping in `PotentialCalculator._count_sorry_tokens`
(`potential.py:90`): Python `re.sub(r'--.*', '', code)` removes every `--`
and the rest of its line, keeping the newline. -/
def removeLineComments (s : Str) : Str := removeLineCommentsAux s.length s

/-- Python regex word character (`\w` over the ASCII outputs involved). -/
def isWordChar (c : Char) : Bool := c.isAlphanum || c == '_'

/-- Number of positions at which `pat` occurs preceded and followed by a word
boundary (`prev` is the character before the scan position, `none` at the
start).  For a token such as "sorry", which cannot overlap itself, this
equals the count of Python `re.findall(r'\b…\b')` matches. -/
def countWordOccs (pat : Str) : Option Char → Str → Nat
  | _, [] => 0
  | prev, c :: cs =>
    (if startsWith pat (c :: cs)
        && (match prev with | none => true | some p => !isWordChar p)
        && (match (c :: cs).drop pat.length with | [] => true | d :: _ => !isWordChar d)
     then 1 else 0)
    + countWordOccs pat (some c) cs

/-- Source: `PotentialCalculator._count_sorry_tokens` (`potential.py:84-92`):
strip line comments, then count whole-word occurrences of the admitted-proof
marker token (the Lean keyword "sorry"). -/
def count_admitted_tokens (leanCode : Str) : Nat :=
  countWordOccs "sorry".toList none (removeLineComments leanCode)

/-- Source: `PotentialCalculator.compute` (`potential.py:38-82`), with the
configurable weights `(weight_goals, weight_sorry, penalty_error)` passed as
rational parameters (their Python defaults are `1.0, 2.0, 5.0`; all
arithmetic performed on them is exact). -/
def compute (wGoals wAdmitted wError : ℚ) (artifact : Artifact)
    (result : Option VerificationResult) : ℚ :=
  let admittedCount := count_admitted_tokens artifact.proofScript
  let base : ℚ := admittedCount * wAdmitted
  match result with
  | none => base
  | some r =>
    if r.status = Status.OK ∧ admittedCount = 0 then 0
    else
      let pot : ℚ :=
        if r.status = Status.ERR_LG then base + (r.unsolvedGoalsCount : ℚ) * wGoals
        else if r.status = Status.ERR_TOOL then base + wError
        else base
      if r.status = Status.ERR_LG ∧ r.unsolvedGoalsCount = 0 then pot + wError
      else pot

/-- Outcome of the attempt to write the candidate source file in
`LeanVerifier.verify` step 1 (`lean_runner.py:63-72`): either it succeeds, or
an `IOError` with a message is raised and caught. -/
inductive WriteOutcome
  | ok
  | ioError (msg : Str)

/-- Outcome of the blocking `lake build` subprocess in `LeanVerifier.verify`
step 2 (`lean_runner.py:76-109`): normal completion with captured output and
exit status, timeout expiry, or any other subprocess-level exception. -/
inductive RunOutcome
  | completed (stdout stderr : Str) (returnCode : Int)
  | timedOut (timeout : Nat)
  | subprocessFailed (msg : Str)

/-- Source: `LeanVerifier.verify` (`lean_runner.py:46-114`), with the two
effectful steps (file write, subprocess run) embedded as explicit outcome
parameters.  Every failure path is converted to an `ERR_TOOL` result; on
normal completion the raw output is delegated to `parse` and its result is
returned unchanged.  Totality of this function is the embedding of "never
lets a raw exception escape". -/
def verify (write : WriteOutcome) (run : RunOutcome) : VerificationResult :=
  match write with
  | .ioError e =>
    { status := Status.ERR_TOOL
      summary := "IO Error during injection".toList
      feedback := "System error: Could not write file.".toList
      rawStderr := e }
  | .ok =>
    match run with
    | .timedOut t =>
      { status := Status.ERR_TOOL
        summary := "Timeout".toList
        feedback := "The verification process timed out. The proof might be inefficient or looping.".toList
        rawStderr := "TimeoutExpired: ".toList ++ (toString t).toList ++ "s".toList }
    | .subprocessFailed e =>
      { status := Status.ERR_TOOL
        summary := "Subprocess Error".toList
        feedback := "System error: ".toList ++ e
        rawStderr := e }
    | .completed stdout stderr returnCode => parse stdout stderr returnCode

/-- Modelled from the spec: history entries (spec §3 `HistoryEntry`).  The
shipped loop appends dictionaries of two shapes (`orchestrator.py:151-156`
for logical errors, `167-171` for tool errors); the two shapes become the
two constructors. -/
inductive HistoryEntry
  | logical (stepIndex : Nat) (artifact : Artifact) (feedback rawError : Str)
  | toolError (stepIndex : Nat) (feedback : Str)
deriving DecidableEq

/-- The fixed feedback text of a tool-error history entry
(`orchestrator.py:170`). -/
def toolErrorFeedback : Str := "System timeout. Optimize proof efficiency.".toList

/-- Result of one `_refinement_loop` run: the returned artifact option, the
final history, and the two metrics lists of `SynthesisLog`
(`iterations` and `semantic_potential`, appended once per loop iteration at
`orchestrator.py:135-136`). -/
structure LoopResult where
  result : Option Artifact
  history : List HistoryEntry
  iterations : List Nat
  potentials : List Nat
deriving DecidableEq

/-- Source: the loop of `Orchestrator._refinement_loop`
(`orchestrator.py:115-177`).  The collaborators are arbitrary behaviors:
`sample` maps the step index and current history to the proposed candidate
(`synthesizer.sample_kernel`), `oracle` maps the step index and candidate to
the verification result (`verifier.verify` with the fixed logical spec and
timeout).  `fuel` is the remaining budget `max_refinement_steps - step`; the
backoff sleep changes no state and is not modelled. -/
def loopFrom (sample : Nat → List HistoryEntry → Artifact)
    (oracle : Nat → Artifact → VerificationResult) :
    Nat → Nat → List HistoryEntry → List Nat → List Nat → LoopResult
  | _, 0, hist, iters, pots => ⟨none, hist, iters, pots⟩
  | step, fuel + 1, hist, iters, pots =>
    let candidate := sample step hist
    let vr := oracle step candidate
    let iters' := iters ++ [step]
    let pots' := pots ++ [vr.unsolvedGoalsCount]
    match vr.status with
    | Status.OK => ⟨some candidate, hist, iters', pots'⟩
    | Status.ERR_LG =>
      loopFrom sample oracle (step + 1) fuel
        (hist ++ [HistoryEntry.logical step candidate vr.feedback vr.rawStderr]) iters' pots'
    | Status.ERR_TOOL =>
      loopFrom sample oracle (step + 1) fuel
        (hist ++ [HistoryEntry.toolError step toolErrorFeedback]) iters' pots'

/-- Source: `Orchestrator._refinement_loop` (`orchestrator.py:106-177`) as
entered from `solve` once formalization and embedding have succeeded: step
counter 0, empty history, empty metrics, full step budget. -/
def refinement_loop (maxRefinementSteps : Nat)
    (sample : Nat → List HistoryEntry → Artifact)
    (oracle : Nat → Artifact → VerificationResult) : LoopResult :=
  loopFrom sample oracle 0 maxRefinementSteps [] [] []

/-- Replay of the loop's history: the history the loop holds when iteration
`k` begins, assuming no earlier iteration returned (an `OK` iteration is
replayed as appending nothing, which is what the loop does before it
returns). -/
def histAt (sample : Nat → List HistoryEntry → Artifact)
    (oracle : Nat → Artifact → VerificationResult) : Nat → List HistoryEntry
  | 0 => []
  | k + 1 =>
    let h := histAt sample oracle k
    let c := sample k h
    let vr := oracle k c
    match vr.status with
    | Status.OK => h
    | Status.ERR_LG => h ++ [HistoryEntry.logical k c vr.feedback vr.rawStderr]
    | Status.ERR_TOOL => h ++ [HistoryEntry.toolError k toolErrorFeedback]

/-- The candidate sampled at iteration `k` (assuming no earlier return). -/
def candAt (sample : Nat → List HistoryEntry → Artifact)
    (oracle : Nat → Artifact → VerificationResult) (k : Nat) : Artifact :=
  sample k (histAt sample oracle k)

/-- The verification status observed at iteration `k`. -/
def statusAt (sample : Nat → List HistoryEntry → Artifact)
    (oracle : Nat → Artifact → VerificationResult) (k : Nat) : Status :=
  (oracle k (candAt sample oracle k)).status

/-- The least step index in `[step, step + fuel)` whose verification returns
`OK`, if any. -/
def firstOKFrom (sample : Nat → List HistoryEntry → Artifact)
    (oracle : Nat → Artifact → VerificationResult) : Nat → Nat → Option Nat
  | _, 0 => none
  | step, fuel + 1 =>
    if statusAt sample oracle step = Status.OK then some step
    else firstOKFrom sample oracle (step + 1) fuel

/-- `pat` occurs in `out` at position `i`. -/
def matchesAt (pat out : Str) (i : Nat) : Bool := startsWith pat (out.drop i)

/-- Least position in `[0, n)` satisfying `p`, if any. -/
def firstIdx (p : Nat → Bool) (n : Nat) : Option Nat := (List.range n).find? p

/-- Spec §4.3 step 3, first feedback piece, following the spec's wording as
the claim states it: the first substring following a case-insensitive
"error:" marker, prefixed "Compiler Error:".  (Positions are found in the
lowercased output; the substring is read from the original output, skipping
whitespace and running to the end of the line.) -/
def claimErrorPiece (out : Str) : Option Str :=
  (firstIdx (matchesAt "error:".toList (lowerStr out)) out.length).map
    (fun i => "Compiler Error: ".toList ++ takeToEol ((out.drop (i + 6)).dropWhile isWhite))

/-- Spec §4.3 step 3, second feedback piece, following the spec's wording as
the claim states it: if "unsolved goals" is present, the text block between
that phrase and the next blank line (or end of output), stripped and
truncated to 1000 characters. -/
def claimGoalsPiece (out : Str) : Option Str :=
  (firstIdx (matchesAt "unsolved goals".toList out) out.length).map
    (fun i =>
      let rest := out.drop (i + 14)
      let blockLen := (firstIdx (matchesAt "\n\n".toList rest) rest.length).getD rest.length
      "Proof State at Failure:\n".toList ++ truncateSnippet (strip (rest.take blockLen)))

/-- The feedback-assembly step shared by the spec-side formulations of
§4.3 step 3: the newline-joined concatenation of whichever pieces were
produced, in order, with the raw 800-character tail as fallback when neither
piece was produced. -/
def assembleFeedback (out : Str) (piece1 piece2 : Option Str) : Str :=
  let pieces := piece1.toList ++ piece2.toList
  let pieces :=
    if pieces = [] then ["Raw Output Tail:\n".toList ++ strip (lastChars 800 out)]
    else pieces
  List.intercalate "\n".toList pieces

/-- Claim C9's description of the classifier's feedback construction,
formalised word for word (with its case-insensitive marker and its
presence-gated goal block). -/
def extract_error_context_claim (out : Str) : Str :=
  assembleFeedback out (claimErrorPiece out) (claimGoalsPiece out)

/-- First feedback piece as the code has it: the marker is spelled exactly
"error:" or "Error:". -/
def specErrorPiece (out : Str) : Option Str :=
  (firstIdx (fun i => matchesAt "error:".toList out i || matchesAt "Error:".toList out i)
      out.length).map
    (fun i => "Compiler Error: ".toList ++ takeToEol ((out.drop (i + 6)).dropWhile isWhite))

/-- Second feedback piece as the code has it: gated on the phrase
"unsolved goals" followed by a newline; the block runs from after that
newline to the next blank line (or the end of the output). -/
def specGoalsPiece (out : Str) : Option Str :=
  (firstIdx (matchesAt "unsolved goals\n".toList out) out.length).map
    (fun i =>
      let rest := out.drop (i + 15)
      let blockLen := (firstIdx (matchesAt "\n\n".toList rest) rest.length).getD rest.length
      "Proof State at Failure:\n".toList ++ truncateSnippet (strip (rest.take blockLen)))

/-- Amended claim C9: the feedback construction with the marker casing and
the goal-block gate corrected to what the code does. -/
def extract_error_context_spec (out : Str) : Str :=
  assembleFeedback out (specErrorPiece out) (specGoalsPiece out)

/-- Concrete classifier output separating claim C9's wording from the code:
an upper-case "ERROR:" marker and an "unsolved goals" phrase not followed by
a newline. -/
def exC9 : Str := "ERROR: bad\nblah unsolved goals".toList

/-- Example candidate artifact, as in `tests/test_lean_runner.py`. -/
def exArtifact : Artifact := ⟨"def p := 1".toList, "trivial".toList, "lean".toList⟩

/-- Example sampling behavior: always proposes `exArtifact`. -/
def exSample : Nat → List HistoryEntry → Artifact := fun _ _ => exArtifact

/-- Example oracle behavior: verification always succeeds. -/
def exOracleOK : Nat → Artifact → VerificationResult :=
  fun _ _ => ⟨Status.OK, [], [], [], [], 0⟩

/-- Example oracle behavior: verification always fails logically. -/
def exOracleLG : Nat → Artifact → VerificationResult :=
  fun _ _ => { status := Status.ERR_LG }

/-- The six tool-failure indicator substrings scanned for by
`FeedbackParser.parse` (`feedback_parser.py:58-74`), as one predicate on the
lowercased combined output. -/
def toolIndicator (lout : Str) : Bool :=
  containsSub "timeout".toList lout || containsSub "deadline".toList lout
    || containsSub "out of memory".toList lout
    || containsSub "segmentation fault".toList lout
    || containsSub "unknown package".toList lout
    || containsSub "no such file".toList lout

/-! ## Theorems -/

/-- The goal-counting helper never returns zero: it takes `max 1 _` when
"unsolved goals" occurs and defaults to 1 otherwise. -/
theorem one_le_count_unsolved_goals (out : Str) : 1 ≤ count_unsolved_goals out := by
  unfold count_unsolved_goals
  split
  · exact Nat.le_max_left 1 _
  · exact Nat.le_refl 1

/-- The flat six-way indicator disjunction regrouped as the three checks the
classifier performs. -/
theorem toolIndicator_eq (lout : Str) :
    toolIndicator lout =
      ((containsSub "timeout".toList lout || containsSub "deadline".toList lout)
        || ((containsSub "out of memory".toList lout
              || containsSub "segmentation fault".toList lout)
          || (containsSub "unknown package".toList lout
              || containsSub "no such file".toList lout))) := by
  simp only [toolIndicator, Bool.or_assoc]

/-- On a nonzero exit status the classifier lands in exactly one of its two
error regimes, decided by the tool-indicator scan: a matching indicator
gives an `ERR_TOOL` result (whose goal count is the modelled record
default 1), and otherwise the result is `ERR_LG` with the counted goals. -/
theorem parse_cases (stdout stderr : Str) (rc : Int) (h0 : rc ≠ 0) :
    (toolIndicator (lowerStr (full_output stdout stderr)) = true ∧
      (parse stdout stderr rc).status = Status.ERR_TOOL ∧
      (parse stdout stderr rc).unsolvedGoalsCount = 1) ∨
    (toolIndicator (lowerStr (full_output stdout stderr)) = false ∧
      (parse stdout stderr rc).status = Status.ERR_LG ∧
      (parse stdout stderr rc).unsolvedGoalsCount
        = count_unsolved_goals (full_output stdout stderr)) := by
  have hti := toolIndicator_eq (lowerStr (full_output stdout stderr))
  simp only [parse, if_neg h0]
  by_cases h1 : (containsSub "timeout".toList (lowerStr (full_output stdout stderr))
      || containsSub "deadline".toList (lowerStr (full_output stdout stderr))) = true
  · rw [if_pos h1]
    exact Or.inl ⟨by rw [hti, h1]; rfl, rfl, rfl⟩
  · rw [if_neg h1]
    by_cases h2 : (containsSub "out of memory".toList (lowerStr (full_output stdout stderr))
        || containsSub "segmentation fault".toList (lowerStr (full_output stdout stderr))) = true
    · rw [if_pos h2]
      refine Or.inl ⟨?_, rfl, rfl⟩
      rw [hti, h2]
      simp
    · rw [if_neg h2]
      by_cases h3 : (containsSub "unknown package".toList (lowerStr (full_output stdout stderr))
          || containsSub "no such file".toList (lowerStr (full_output stdout stderr))) = true
      · rw [if_pos h3]
        refine Or.inl ⟨?_, rfl, rfl⟩
        rw [hti, h3]
        simp
      · rw [if_neg h3]
        refine Or.inr ⟨?_, rfl, rfl⟩
        simp only [Bool.not_eq_true] at h1 h2 h3
        rw [hti, h1, h2, h3]
        rfl

/-- C2.  For every input triple, `parse` returns exactly one of the three
statuses, in strict priority order: exit status 0 yields OK; otherwise a
tool-indicator substring in the lowercased combined output yields `ERR_TOOL`
unconditionally — in particular even when the output also contains an
"error:" substring — and only otherwise is the output classified as a
logical error. -/
theorem classify_total_and_priority (stdout stderr : Str) (rc : Int) :
    ((parse stdout stderr rc).status = Status.OK ∨
      (parse stdout stderr rc).status = Status.ERR_TOOL ∨
      (parse stdout stderr rc).status = Status.ERR_LG) ∧
    (rc = 0 → (parse stdout stderr rc).status = Status.OK) ∧
    (rc ≠ 0 → toolIndicator (lowerStr (full_output stdout stderr)) = true →
      (parse stdout stderr rc).status = Status.ERR_TOOL) ∧
    (rc ≠ 0 → toolIndicator (lowerStr (full_output stdout stderr)) = false →
      (parse stdout stderr rc).status = Status.ERR_LG) := by
  by_cases h0 : rc = 0
  · simp [parse, h0]
  · rcases parse_cases stdout stderr rc h0 with ⟨hti, hst, _⟩ | ⟨hti, hst, _⟩
    · exact ⟨Or.inr (Or.inl hst), fun hc => absurd hc h0, fun _ _ => hst,
        fun _ hf => absurd (hti.symm.trans hf) (by simp)⟩
    · exact ⟨Or.inr (Or.inr hst), fun hc => absurd hc h0,
        fun _ ht => absurd (hti.symm.trans ht) (by simp), fun _ _ => hst⟩

/-- C2 witness: a nonzero exit status whose output contains both the
tool indicator "timeout" and a generic "error:" substring is classified
`ERR_TOOL`. -/
theorem classify_total_and_priority_w :
    (1 : Int) ≠ 0 ∧
    toolIndicator (lowerStr (full_output "error: x".toList " timeout".toList)) = true ∧
    (parse "error: x".toList " timeout".toList 1).status = Status.ERR_TOOL :=
  ⟨by decide,
    by decide,
    (classify_total_and_priority "error: x".toList " timeout".toList 1).2.2.1
      (by decide) (by decide)⟩

/-- C3.  Under the classifier's own output the three-way success invariant
holds: the exit status is 0 iff the status is OK iff the unsolved-goal count
is 0 — the `ERR_TOOL` results rely on the modelled record default for the
omitted `unsolvedGoalsCount` field (see `VerificationResult`). -/
theorem classify_success_invariant (stdout stderr : Str) (rc : Int) :
    (rc = 0 ↔ (parse stdout stderr rc).status = Status.OK) ∧
    ((parse stdout stderr rc).status = Status.OK ↔
      (parse stdout stderr rc).unsolvedGoalsCount = 0) := by
  have hpos := one_le_count_unsolved_goals (full_output stdout stderr)
  by_cases h0 : rc = 0
  · simp [parse, h0]
  · rcases parse_cases stdout stderr rc h0 with ⟨_, hst, hc⟩ | ⟨_, hst, hc⟩ <;>
      (rw [hst, hc]; constructor <;> (simp [h0]; try omega))

/-- C3 witness: a concrete OK result and a concrete `ERR_TOOL` result of the
classifier, with their goal counts. -/
theorem classify_success_invariant_w :
    (parse "Building X... [OK]".toList [] 0).status = Status.OK ∧
    (parse [] "unknown package x".toList 1).unsolvedGoalsCount ≠ 0 :=
  ⟨(classify_success_invariant "Building X... [OK]".toList [] 0).1.mp rfl,
    fun hc =>
      absurd
        ((classify_success_invariant [] "unknown package x".toList 1).1.mpr
          ((classify_success_invariant [] "unknown package x".toList 1).2.mpr hc))
        (by decide)⟩

/-- C7.  The goal-counting helper: at least 1 on every input; on outputs
containing "unsolved goals" it equals `max 1 (count of "case ")`, hence
equals the "case " occurrence count whenever that count exceeds 1; on other
outputs it defaults to 1. -/
theorem count_unsolved_goals_spec (out : Str) :
    1 ≤ count_unsolved_goals out ∧
    (containsSub "unsolved goals".toList out = true →
      count_unsolved_goals out = max 1 (countSub "case ".toList out) ∧
      (1 < countSub "case ".toList out →
        count_unsolved_goals out = countSub "case ".toList out)) ∧
    (containsSub "unsolved goals".toList out = false → count_unsolved_goals out = 1) := by
  refine ⟨one_le_count_unsolved_goals out, fun h => ⟨?_, fun hlt => ?_⟩, fun h => ?_⟩
  · unfold count_unsolved_goals
    rw [if_pos h]
  · unfold count_unsolved_goals
    rw [if_pos h]
    exact Nat.max_eq_right hlt.le
  · unfold count_unsolved_goals
    rw [if_neg (fun hc => absurd (h.symm.trans hc) Bool.false_ne_true)]

/-- Unfolding `compute` with no result: the static base potential. -/
theorem compute_none (wGoals wAdmitted wError : ℚ) (a : Artifact) :
    compute wGoals wAdmitted wError a none
      = (count_admitted_tokens a.proofScript : ℚ) * wAdmitted := rfl

/-- Unfolding `compute` on an OK result with no admitted markers. -/
theorem compute_ok_zero (wGoals wAdmitted wError : ℚ) (a : Artifact)
    (r : VerificationResult) (hs : r.status = Status.OK)
    (hc : count_admitted_tokens a.proofScript = 0) :
    compute wGoals wAdmitted wError a (some r) = 0 := by
  simp only [compute]
  rw [hs]
  rw [if_pos ⟨rfl, hc⟩]

/-- Unfolding `compute` on an OK result that still contains admitted
markers: the base potential is returned unchanged. -/
theorem compute_ok_pos (wGoals wAdmitted wError : ℚ) (a : Artifact)
    (r : VerificationResult) (hs : r.status = Status.OK)
    (hc : count_admitted_tokens a.proofScript ≠ 0) :
    compute wGoals wAdmitted wError a (some r)
      = (count_admitted_tokens a.proofScript : ℚ) * wAdmitted := by
  simp only [compute]
  rw [hs]
  rw [if_neg (fun h => hc h.2)]
  rw [if_neg (fun h => Status.noConfusion h.1)]
  rw [if_neg (fun h => Status.noConfusion h)]
  rw [if_neg (fun h => Status.noConfusion h)]

/-- Unfolding `compute` on a logical-error result: base plus weighted goal
count, plus the generic error penalty exactly when the reported goal count
is zero. -/
theorem compute_lg (wGoals wAdmitted wError : ℚ) (a : Artifact)
    (r : VerificationResult) (hs : r.status = Status.ERR_LG) :
    compute wGoals wAdmitted wError a (some r)
      = (count_admitted_tokens a.proofScript : ℚ) * wAdmitted
        + (r.unsolvedGoalsCount : ℚ) * wGoals
        + (if r.unsolvedGoalsCount = 0 then wError else 0) := by
  simp only [compute]
  rw [hs]
  rw [if_neg (fun h => Status.noConfusion h.1)]
  rw [if_pos rfl]
  by_cases hc : r.unsolvedGoalsCount = 0
  · rw [if_pos ⟨rfl, hc⟩, if_pos hc]
  · rw [if_neg (fun h => hc h.2), if_neg hc, add_zero]

/-- Unfolding `compute` on a tool-error result: base plus the error
penalty. -/
theorem compute_tool (wGoals wAdmitted wError : ℚ) (a : Artifact)
    (r : VerificationResult) (hs : r.status = Status.ERR_TOOL) :
    compute wGoals wAdmitted wError a (some r)
      = (count_admitted_tokens a.proofScript : ℚ) * wAdmitted + wError := by
  simp only [compute]
  rw [hs]
  rw [if_neg (fun h => Status.noConfusion h.1)]
  rw [if_neg (fun h => Status.noConfusion h.1)]
  rw [if_neg (fun h => Status.noConfusion h)]
  rw [if_pos rfl]

/-- C7 witness: an output with two "case " markers after "unsolved goals"
counts two goals. -/
theorem count_unsolved_goals_spec_w :
    count_unsolved_goals "unsolved goals\ncase g1\nx\ncase g2\ny".toList
      = countSub "case ".toList "unsolved goals\ncase g1\nx\ncase g2\ny".toList ∧
    countSub "case ".toList "unsolved goals\ncase g1\nx\ncase g2\ny".toList = 2 :=
  ⟨((count_unsolved_goals_spec "unsolved goals\ncase g1\nx\ncase g2\ny".toList).2.1
        (by decide)).2 (by decide),
    by decide⟩

/-- C4.  With positive weights (the configured defaults are `1, 2, 5`), the
potential of an artifact with a supplied verification result is zero exactly
when the result's status is OK and the artifact's admitted-marker count is
zero. -/
theorem potential_zero_iff (wGoals wAdmitted wError : ℚ)
    (hg : 0 < wGoals) (ha : 0 < wAdmitted) (he : 0 < wError)
    (a : Artifact) (r : VerificationResult) :
    compute wGoals wAdmitted wError a (some r) = 0 ↔
      (r.status = Status.OK ∧ count_admitted_tokens a.proofScript = 0) := by
  have hbase : (0 : ℚ) ≤ (count_admitted_tokens a.proofScript : ℚ) * wAdmitted :=
    mul_nonneg (Nat.cast_nonneg _) ha.le
  cases hs : r.status
  case OK =>
    by_cases hc : count_admitted_tokens a.proofScript = 0
    · rw [compute_ok_zero wGoals wAdmitted wError a r hs hc]
      simp [hs, hc]
    · rw [compute_ok_pos wGoals wAdmitted wError a r hs hc]
      constructor
      · intro h0
        rcases mul_eq_zero.mp h0 with h | h
        · exact absurd (Nat.cast_eq_zero.mp h) hc
        · exact absurd h (ne_of_gt ha)
      · rintro ⟨-, hcc⟩
        exact absurd hcc hc
  case ERR_LG =>
    rw [compute_lg wGoals wAdmitted wError a r hs]
    constructor
    · intro h0
      exfalso
      by_cases hcc : r.unsolvedGoalsCount = 0
      · rw [if_pos hcc, hcc] at h0
        push_cast at h0
        linarith
      · have h1 : (1 : ℚ) ≤ (r.unsolvedGoalsCount : ℚ) := by
          exact_mod_cast Nat.one_le_iff_ne_zero.mpr hcc
        have h2 : wGoals ≤ (r.unsolvedGoalsCount : ℚ) * wGoals :=
          le_mul_of_one_le_left hg.le h1
        rw [if_neg hcc] at h0
        linarith
    · rintro ⟨hok, -⟩
      exact Status.noConfusion hok
  case ERR_TOOL =>
    rw [compute_tool wGoals wAdmitted wError a r hs]
    constructor
    · intro h0
      linarith
    · rintro ⟨hok, -⟩
      exact Status.noConfusion hok

/-- C4 witness: at the default weights, an OK result over a marker-free
proof script has potential zero. -/
theorem potential_zero_iff_w :
    (0 : ℚ) < 1 ∧
    compute 1 2 5 exArtifact (some ⟨Status.OK, [], [], [], [], 0⟩) = 0 :=
  ⟨by decide,
    (potential_zero_iff 1 2 5 (by decide) (by decide) (by decide) exArtifact
        ⟨Status.OK, [], [], [], [], 0⟩).mpr ⟨rfl, by decide⟩⟩

/-- C8.  The potential formula: base `admittedCount * wAdmitted` when no
result is supplied; base plus `unsolvedGoalCount * wGoals` on a logical
error, plus the extra `wError` exactly when that count is zero; base plus
`wError` on a tool error; and, for non-negative weights, the returned value
is always non-negative. -/
theorem compute_formula (wGoals wAdmitted wError : ℚ)
    (hg : 0 ≤ wGoals) (ha : 0 ≤ wAdmitted) (he : 0 ≤ wError) (a : Artifact) :
    compute wGoals wAdmitted wError a none
      = (count_admitted_tokens a.proofScript : ℚ) * wAdmitted ∧
    (∀ r : VerificationResult, r.status = Status.ERR_LG →
      compute wGoals wAdmitted wError a (some r)
        = (count_admitted_tokens a.proofScript : ℚ) * wAdmitted
          + (r.unsolvedGoalsCount : ℚ) * wGoals
          + (if r.unsolvedGoalsCount = 0 then wError else 0)) ∧
    (∀ r : VerificationResult, r.status = Status.ERR_TOOL →
      compute wGoals wAdmitted wError a (some r)
        = (count_admitted_tokens a.proofScript : ℚ) * wAdmitted + wError) ∧
    (∀ ro : Option VerificationResult, 0 ≤ compute wGoals wAdmitted wError a ro) := by
  have hbase : (0 : ℚ) ≤ (count_admitted_tokens a.proofScript : ℚ) * wAdmitted :=
    mul_nonneg (Nat.cast_nonneg _) ha
  refine ⟨compute_none wGoals wAdmitted wError a,
    fun r hr => compute_lg wGoals wAdmitted wError a r hr,
    fun r hr => compute_tool wGoals wAdmitted wError a r hr,
    fun ro => ?_⟩
  rcases ro with - | r
  · rw [compute_none]
    exact hbase
  · have hgoal : (0 : ℚ) ≤ (r.unsolvedGoalsCount : ℚ) * wGoals :=
      mul_nonneg (Nat.cast_nonneg _) hg
    cases hs : r.status
    case OK =>
      by_cases hc : count_admitted_tokens a.proofScript = 0
      · rw [compute_ok_zero wGoals wAdmitted wError a r hs hc]
      · rw [compute_ok_pos wGoals wAdmitted wError a r hs hc]
        exact hbase
    case ERR_LG =>
      rw [compute_lg wGoals wAdmitted wError a r hs]
      by_cases hcc : r.unsolvedGoalsCount = 0
      · rw [if_pos hcc]
        linarith
      · rw [if_neg hcc]
        linarith
    case ERR_TOOL =>
      rw [compute_tool wGoals wAdmitted wError a r hs]
      linarith

/-- C8 witness: at the default weights, the tool-error formula and the
non-negativity of the no-result base. -/
theorem compute_formula_w :
    compute 1 2 5 exArtifact (some { status := Status.ERR_TOOL })
      = (count_admitted_tokens exArtifact.proofScript : ℚ) * 2 + 5 ∧
    (0 : ℚ) ≤ compute 1 2 5 exArtifact none :=
  ⟨(compute_formula 1 2 5 (by decide) (by decide) (by decide) exArtifact).2.2.1
      { status := Status.ERR_TOOL } rfl,
    (compute_formula 1 2 5 (by decide) (by decide) (by decide) exArtifact).2.2.2 none⟩

/-- C10.  The goal-counting helper never returns zero, so every `ERR_LG`
result built by the classifier carries `unsolvedGoalsCount ≥ 1`; hence on
classifier-produced logical errors the potential calculator's extra
`wError` branch for a zero goal count never fires, and the potential is
exactly base plus the weighted goal count. -/
theorem classifier_goals_positive (stdout stderr : Str) (rc : Int)
    (wGoals wAdmitted wError : ℚ) (a : Artifact) :
    1 ≤ count_unsolved_goals (full_output stdout stderr) ∧
    ((parse stdout stderr rc).status = Status.ERR_LG →
      1 ≤ (parse stdout stderr rc).unsolvedGoalsCount) ∧
    ((parse stdout stderr rc).status = Status.ERR_LG →
      compute wGoals wAdmitted wError a (some (parse stdout stderr rc))
        = (count_admitted_tokens a.proofScript : ℚ) * wAdmitted
          + ((parse stdout stderr rc).unsolvedGoalsCount : ℚ) * wGoals) := by
  have key : (parse stdout stderr rc).status = Status.ERR_LG →
      1 ≤ (parse stdout stderr rc).unsolvedGoalsCount := by
    intro hlg
    by_cases h0 : rc = 0
    · have : (parse stdout stderr rc).status = Status.OK := by
        simp [parse, h0]
      rw [hlg] at this
      exact Status.noConfusion this
    · rcases parse_cases stdout stderr rc h0 with ⟨-, hst, -⟩ | ⟨-, -, hc⟩
      · rw [hlg] at hst
        exact Status.noConfusion hst
      · rw [hc]
        exact one_le_count_unsolved_goals _
  refine ⟨one_le_count_unsolved_goals _, key, fun hlg => ?_⟩
  rw [compute_lg wGoals wAdmitted wError a _ hlg]
  rw [if_neg (by have := key hlg; omega), add_zero]

/-- C10 witness: a concrete logical-error output, its positive goal count,
and the potential it induces at the default weights. -/
theorem classifier_goals_positive_w :
    (parse "error: unsolved goals".toList [] 1).status = Status.ERR_LG ∧
    1 ≤ (parse "error: unsolved goals".toList [] 1).unsolvedGoalsCount ∧
    compute 1 2 5 exArtifact (some (parse "error: unsolved goals".toList [] 1))
      = (count_admitted_tokens exArtifact.proofScript : ℚ) * 2
        + ((parse "error: unsolved goals".toList [] 1).unsolvedGoalsCount : ℚ) * 1 :=
  ⟨by decide,
    (classifier_goals_positive "error: unsolved goals".toList [] 1 1 2 5 exArtifact).2.1
      (by decide),
    (classifier_goals_positive "error: unsolved goals".toList [] 1 1 2 5 exArtifact).2.2
      (by decide)⟩

/-- C6.  The verification oracle never propagates a raw failure: an I/O
failure while writing the candidate file gives `ERR_TOOL` with a summary
identifying an IO error; timeout expiry gives `ERR_TOOL` with summary
"Timeout" (a fixed record, built without consulting the classifier); any
other subprocess-level failure gives `ERR_TOOL` with summary
"Subprocess Error"; and on completion the classifier's result is returned
unchanged.  (`verify` is a total function of the outcome parameters — the
embedding of "never lets a raw exception escape".) -/
theorem verify_error_handling :
    (∀ (e : Str) (ro : RunOutcome),
      (verify (WriteOutcome.ioError e) ro).status = Status.ERR_TOOL ∧
      containsSub "IO Error".toList (verify (WriteOutcome.ioError e) ro).summary = true) ∧
    (∀ t : Nat,
      (verify WriteOutcome.ok (RunOutcome.timedOut t)).status = Status.ERR_TOOL ∧
      (verify WriteOutcome.ok (RunOutcome.timedOut t)).summary = "Timeout".toList) ∧
    (∀ m : Str,
      (verify WriteOutcome.ok (RunOutcome.subprocessFailed m)).status = Status.ERR_TOOL ∧
      (verify WriteOutcome.ok (RunOutcome.subprocessFailed m)).summary
        = "Subprocess Error".toList) ∧
    (∀ (stdout stderr : Str) (rc : Int),
      verify WriteOutcome.ok (RunOutcome.completed stdout stderr rc)
        = parse stdout stderr rc) := by
  refine ⟨fun e ro => ⟨rfl, ?_⟩, fun t => ⟨rfl, rfl⟩, fun m => ⟨rfl, rfl⟩,
    fun stdout stderr rc => rfl⟩
  show containsSub "IO Error".toList "IO Error during injection".toList = true
  decide

/-- One-step unfolding of the loop when iteration `step` verifies OK: the
loop returns the candidate at once, logging the iteration but appending no
history entry. -/
theorem loopFrom_succ_ok (sample : Nat → List HistoryEntry → Artifact)
    (oracle : Nat → Artifact → VerificationResult) (step fuel : Nat)
    (h : List HistoryEntry) (i p : List Nat)
    (hst : (oracle step (sample step h)).status = Status.OK) :
    loopFrom sample oracle step (fuel + 1) h i p
      = ⟨some (sample step h), h, i ++ [step],
          p ++ [(oracle step (sample step h)).unsolvedGoalsCount]⟩ := by
  simp only [loopFrom]
  split
  · rfl
  next heq => exact absurd (heq.symm.trans hst) (fun hc => Status.noConfusion hc)
  next heq => exact absurd (heq.symm.trans hst) (fun hc => Status.noConfusion hc)

/-- One-step unfolding of the loop on a logical error: one history entry is
appended and the loop proceeds. -/
theorem loopFrom_succ_lg (sample : Nat → List HistoryEntry → Artifact)
    (oracle : Nat → Artifact → VerificationResult) (step fuel : Nat)
    (h : List HistoryEntry) (i p : List Nat)
    (hst : (oracle step (sample step h)).status = Status.ERR_LG) :
    loopFrom sample oracle step (fuel + 1) h i p
      = loopFrom sample oracle (step + 1) fuel
          (h ++ [HistoryEntry.logical step (sample step h)
            (oracle step (sample step h)).feedback (oracle step (sample step h)).rawStderr])
          (i ++ [step]) (p ++ [(oracle step (sample step h)).unsolvedGoalsCount]) := by
  simp only [loopFrom]
  split
  next heq => exact absurd (heq.symm.trans hst) (fun hc => Status.noConfusion hc)
  · rfl
  next heq => exact absurd (heq.symm.trans hst) (fun hc => Status.noConfusion hc)

/-- One-step unfolding of the loop on a tool error: one tool-failure history
entry is appended and the loop proceeds (after the unmodelled backoff
sleep). -/
theorem loopFrom_succ_tool (sample : Nat → List HistoryEntry → Artifact)
    (oracle : Nat → Artifact → VerificationResult) (step fuel : Nat)
    (h : List HistoryEntry) (i p : List Nat)
    (hst : (oracle step (sample step h)).status = Status.ERR_TOOL) :
    loopFrom sample oracle step (fuel + 1) h i p
      = loopFrom sample oracle (step + 1) fuel
          (h ++ [HistoryEntry.toolError step toolErrorFeedback])
          (i ++ [step]) (p ++ [(oracle step (sample step h)).unsolvedGoalsCount]) := by
  simp only [loopFrom]
  split
  next heq => exact absurd (heq.symm.trans hst) (fun hc => Status.noConfusion hc)
  next heq => exact absurd (heq.symm.trans hst) (fun hc => Status.noConfusion hc)
  · rfl

/-- Replay unfolding on an OK iteration: nothing is appended. -/
theorem histAt_succ_ok (sample : Nat → List HistoryEntry → Artifact)
    (oracle : Nat → Artifact → VerificationResult) (k : Nat)
    (hst : statusAt sample oracle k = Status.OK) :
    histAt sample oracle (k + 1) = histAt sample oracle k := by
  have hst' : (oracle k (sample k (histAt sample oracle k))).status = Status.OK := hst
  simp only [histAt]
  split
  · rfl
  next heq => exact absurd (heq.symm.trans hst') (fun hc => Status.noConfusion hc)
  next heq => exact absurd (heq.symm.trans hst') (fun hc => Status.noConfusion hc)

/-- Replay unfolding on a logical-error iteration: exactly one entry is
appended. -/
theorem histAt_succ_lg (sample : Nat → List HistoryEntry → Artifact)
    (oracle : Nat → Artifact → VerificationResult) (k : Nat)
    (hst : statusAt sample oracle k = Status.ERR_LG) :
    histAt sample oracle (k + 1)
      = histAt sample oracle k
          ++ [HistoryEntry.logical k (candAt sample oracle k)
            (oracle k (candAt sample oracle k)).feedback
            (oracle k (candAt sample oracle k)).rawStderr] := by
  have hst' : (oracle k (sample k (histAt sample oracle k))).status = Status.ERR_LG := hst
  simp only [histAt]
  split
  next heq => exact absurd (heq.symm.trans hst') (fun hc => Status.noConfusion hc)
  · rfl
  next heq => exact absurd (heq.symm.trans hst') (fun hc => Status.noConfusion hc)

/-- Replay unfolding on a tool-error iteration: exactly one entry is
appended. -/
theorem histAt_succ_tool (sample : Nat → List HistoryEntry → Artifact)
    (oracle : Nat → Artifact → VerificationResult) (k : Nat)
    (hst : statusAt sample oracle k = Status.ERR_TOOL) :
    histAt sample oracle (k + 1)
      = histAt sample oracle k ++ [HistoryEntry.toolError k toolErrorFeedback] := by
  have hst' : (oracle k (sample k (histAt sample oracle k))).status = Status.ERR_TOOL := hst
  simp only [histAt]
  split
  next heq => exact absurd (heq.symm.trans hst') (fun hc => Status.noConfusion hc)
  next heq => exact absurd (heq.symm.trans hst') (fun hc => Status.noConfusion hc)
  · rfl

/-- The replayed history grows by at most one entry per iteration. -/
theorem histAt_length_le (sample : Nat → List HistoryEntry → Artifact)
    (oracle : Nat → Artifact → VerificationResult) :
    ∀ k, (histAt sample oracle k).length ≤ k := by
  intro k
  induction k with
  | zero => simp [histAt]
  | succ k ih =>
    cases hst : statusAt sample oracle k with
    | OK =>
      rw [histAt_succ_ok sample oracle k hst]
      omega
    | ERR_LG =>
      rw [histAt_succ_lg sample oracle k hst]
      simp only [List.length_append, List.length_cons, List.length_nil]
      omega
    | ERR_TOOL =>
      rw [histAt_succ_tool sample oracle k hst]
      simp only [List.length_append, List.length_cons, List.length_nil]
      omega

/-- A found first-OK index lies in the searched window, verifies OK, and is
preceded (within the window) only by non-OK iterations. -/
theorem firstOKFrom_some (sample : Nat → List HistoryEntry → Artifact)
    (oracle : Nat → Artifact → VerificationResult) :
    ∀ fuel step m, firstOKFrom sample oracle step fuel = some m →
      step ≤ m ∧ m < step + fuel ∧ statusAt sample oracle m = Status.OK ∧
      ∀ j, step ≤ j → j < m → statusAt sample oracle j ≠ Status.OK := by
  intro fuel
  induction fuel with
  | zero => intro step m hm; exact absurd hm (by simp [firstOKFrom])
  | succ fuel ih =>
    intro step m hm
    by_cases hst : statusAt sample oracle step = Status.OK
    · rw [firstOKFrom, if_pos hst] at hm
      obtain rfl : step = m := Option.some.inj hm
      exact ⟨Nat.le_refl _, by omega, hst, fun j h1 h2 => by omega⟩
    · rw [firstOKFrom, if_neg hst] at hm
      obtain ⟨h1, h2, h3, h4⟩ := ih (step + 1) m hm
      refine ⟨by omega, by omega, h3, fun j hj1 hj2 => ?_⟩
      rcases Nat.eq_or_lt_of_le hj1 with rfl | hlt
      · exact hst
      · exact h4 j hlt hj2

/-- When no index in the window verifies OK, every iteration in the window
is non-OK. -/
theorem firstOKFrom_none (sample : Nat → List HistoryEntry → Artifact)
    (oracle : Nat → Artifact → VerificationResult) :
    ∀ fuel step, firstOKFrom sample oracle step fuel = none →
      ∀ j, step ≤ j → j < step + fuel → statusAt sample oracle j ≠ Status.OK := by
  intro fuel
  induction fuel with
  | zero => intro step _ j h1 h2; omega
  | succ fuel ih =>
    intro step hm j h1 h2
    by_cases hst : statusAt sample oracle step = Status.OK
    · rw [firstOKFrom, if_pos hst] at hm
      exact absurd hm (by simp)
    · rw [firstOKFrom, if_neg hst] at hm
      rcases Nat.eq_or_lt_of_le h1 with rfl | hlt
      · exact hst
      · exact ih (step + 1) hm j hlt (by omega)

/-- Full characterization of the refinement loop started at `step` with the
replayed history: if some index in the remaining window verifies OK, the
loop returns that iteration's candidate with the history accumulated so far
and one metrics entry per executed iteration; otherwise it exhausts the
window, returns absence, and has executed the whole window. -/
theorem loopFrom_char (sample : Nat → List HistoryEntry → Artifact)
    (oracle : Nat → Artifact → VerificationResult) :
    ∀ (fuel step : Nat) (iters pots : List Nat),
      (∀ m, firstOKFrom sample oracle step fuel = some m →
        (loopFrom sample oracle step fuel (histAt sample oracle step) iters pots).result
            = some (candAt sample oracle m) ∧
        (loopFrom sample oracle step fuel (histAt sample oracle step) iters pots).history
            = histAt sample oracle m ∧
        (loopFrom sample oracle step fuel (histAt sample oracle step) iters
            pots).iterations.length
            = iters.length + (m + 1 - step)) ∧
      (firstOKFrom sample oracle step fuel = none →
        (loopFrom sample oracle step fuel (histAt sample oracle step) iters pots).result
            = none ∧
        (loopFrom sample oracle step fuel (histAt sample oracle step) iters pots).history
            = histAt sample oracle (step + fuel) ∧
        (loopFrom sample oracle step fuel (histAt sample oracle step) iters
            pots).iterations.length
            = iters.length + fuel) := by
  intro fuel
  induction fuel with
  | zero =>
    intro step iters pots
    constructor
    · intro m hm
      exact absurd hm (by simp [firstOKFrom])
    · intro _
      exact ⟨rfl, by simp [loopFrom], by simp [loopFrom]⟩
  | succ fuel ih =>
    intro step iters pots
    cases hst : statusAt sample oracle step with
    | OK =>
      have hst' : (oracle step (sample step (histAt sample oracle step))).status
          = Status.OK := hst
      rw [loopFrom_succ_ok sample oracle step fuel _ iters pots hst']
      constructor
      · intro m hm
        rw [firstOKFrom, if_pos hst] at hm
        obtain rfl : step = m := Option.some.inj hm
        refine ⟨rfl, rfl, ?_⟩
        simp only [List.length_append, List.length_cons, List.length_nil]
        omega
      · intro hm
        rw [firstOKFrom, if_pos hst] at hm
        exact absurd hm (by simp)
    | ERR_LG =>
      have hst' : (oracle step (sample step (histAt sample oracle step))).status
          = Status.ERR_LG := hst
      rw [loopFrom_succ_lg sample oracle step fuel _ iters pots hst']
      rw [show histAt sample oracle step
            ++ [HistoryEntry.logical step (sample step (histAt sample oracle step))
              (oracle step (sample step (histAt sample oracle step))).feedback
              (oracle step (sample step (histAt sample oracle step))).rawStderr]
          = histAt sample oracle (step + 1) from (histAt_succ_lg sample oracle step hst).symm]
      constructor
      · intro m hm
        rw [firstOKFrom, if_neg (by rw [hst]; exact fun hc => Status.noConfusion hc)] at hm
        obtain ⟨h1, h2, h3⟩ := (ih (step + 1) (iters ++ [step])
          (pots ++ [(oracle step (sample step (histAt sample oracle step))).unsolvedGoalsCount])).1 m hm
        have hge := (firstOKFrom_some sample oracle fuel (step + 1) m hm).1
        refine ⟨h1, h2, ?_⟩
        rw [h3]
        simp only [List.length_append, List.length_cons, List.length_nil]
        omega
      · intro hm
        rw [firstOKFrom, if_neg (by rw [hst]; exact fun hc => Status.noConfusion hc)] at hm
        obtain ⟨h1, h2, h3⟩ := (ih (step + 1) (iters ++ [step])
          (pots ++ [(oracle step (sample step (histAt sample oracle step))).unsolvedGoalsCount])).2 hm
        refine ⟨h1, ?_, ?_⟩
        · rw [h2]
          congr 1
          omega
        · rw [h3]
          simp only [List.length_append, List.length_cons, List.length_nil]
          omega
    | ERR_TOOL =>
      have hst' : (oracle step (sample step (histAt sample oracle step))).status
          = Status.ERR_TOOL := hst
      rw [loopFrom_succ_tool sample oracle step fuel _ iters pots hst']
      rw [show histAt sample oracle step ++ [HistoryEntry.toolError step toolErrorFeedback]
          = histAt sample oracle (step + 1) from (histAt_succ_tool sample oracle step hst).symm]
      constructor
      · intro m hm
        rw [firstOKFrom, if_neg (by rw [hst]; exact fun hc => Status.noConfusion hc)] at hm
        obtain ⟨h1, h2, h3⟩ := (ih (step + 1) (iters ++ [step])
          (pots ++ [(oracle step (sample step (histAt sample oracle step))).unsolvedGoalsCount])).1 m hm
        have hge := (firstOKFrom_some sample oracle fuel (step + 1) m hm).1
        refine ⟨h1, h2, ?_⟩
        rw [h3]
        simp only [List.length_append, List.length_cons, List.length_nil]
        omega
      · intro hm
        rw [firstOKFrom, if_neg (by rw [hst]; exact fun hc => Status.noConfusion hc)] at hm
        obtain ⟨h1, h2, h3⟩ := (ih (step + 1) (iters ++ [step])
          (pots ++ [(oracle step (sample step (histAt sample oracle step))).unsolvedGoalsCount])).2 hm
        refine ⟨h1, ?_, ?_⟩
        · rw [h2]
          congr 1
          omega
        · rw [h3]
          simp only [List.length_append, List.length_cons, List.length_nil]
          omega

/-- C1.  For every step budget `T` and every behavior of the sampling and
verification collaborators, the refinement loop entered by a `solve` call
that passed formalization and embedding executes at most `T` iterations (one
metrics entry is logged per iteration) and returns: on absence the budget
was fully exhausted with no iteration verifying OK, and on success the
returned artifact is the candidate of the first iteration whose verification
returned OK, reached after exactly that many iterations.  The loop is a
total function, so it never loops unboundedly. -/
theorem solve_terminates (T : Nat) (sample : Nat → List HistoryEntry → Artifact)
    (oracle : Nat → Artifact → VerificationResult) :
    (refinement_loop T sample oracle).iterations.length ≤ T ∧
    ((refinement_loop T sample oracle).result = none →
      (refinement_loop T sample oracle).iterations.length = T ∧
      ∀ k, k < T → statusAt sample oracle k ≠ Status.OK) ∧
    (∀ a, (refinement_loop T sample oracle).result = some a →
      ∃ k, k < T ∧ a = candAt sample oracle k ∧
        statusAt sample oracle k = Status.OK ∧
        (refinement_loop T sample oracle).iterations.length = k + 1 ∧
        ∀ j, j < k → statusAt sample oracle j ≠ Status.OK) := by
  have hchar := loopFrom_char sample oracle T 0 [] []
  have hrw : refinement_loop T sample oracle
      = loopFrom sample oracle 0 T (histAt sample oracle 0) [] [] := rfl
  cases hfo : firstOKFrom sample oracle 0 T with
  | some m =>
    obtain ⟨h1, h2, h3⟩ := hchar.1 m hfo
    obtain ⟨-, hmT, hok, hmin⟩ := firstOKFrom_some sample oracle T 0 m hfo
    rw [hrw]
    refine ⟨?_, ?_, ?_⟩
    · rw [h3]
      simp only [List.length_nil]
      omega
    · intro hnone
      rw [hnone] at h1
      exact absurd h1.symm (by simp)
    · intro a ha
      rw [ha] at h1
      refine ⟨m, by omega, Option.some.inj h1, hok, ?_,
        fun j hj => hmin j (Nat.zero_le j) hj⟩
      rw [h3]
      simp only [List.length_nil]
      omega
  | none =>
    obtain ⟨h1, h2, h3⟩ := hchar.2 hfo
    rw [hrw]
    refine ⟨?_, ?_, ?_⟩
    · rw [h3]
      simp
    · intro _
      refine ⟨by rw [h3]; simp, fun k hk => ?_⟩
      exact firstOKFrom_none sample oracle T 0 hfo k (Nat.zero_le k) (by omega)
    · intro a ha
      rw [ha] at h1
      exact absurd h1 (by simp)

/-- C1 witness: with a budget of 3 and an oracle that always verifies OK,
the loop returns the sampled artifact after exactly one iteration. -/
theorem solve_terminates_w :
    ∃ k, k < 3 ∧ exArtifact = candAt exSample exOracleOK k ∧
      statusAt exSample exOracleOK k = Status.OK ∧
      (refinement_loop 3 exSample exOracleOK).iterations.length = k + 1 ∧
      ∀ j, j < k → statusAt exSample exOracleOK j ≠ Status.OK :=
  (solve_terminates 3 exSample exOracleOK).2.2 exArtifact rfl

/-- C5.  Within one `solve` call the history is append-only: every iteration
appends at most one entry — exactly one on `ERR_LG` or `ERR_TOOL`, none on
OK — existing entries are only extended (each history state is a prefix of
the next), the loop's final history is one of the replayed history states,
and its length never exceeds the step budget. -/
theorem history_append_only (T : Nat) (sample : Nat → List HistoryEntry → Artifact)
    (oracle : Nat → Artifact → VerificationResult) :
    (∀ k, histAt sample oracle k <+: histAt sample oracle (k + 1)) ∧
    (∀ k, (histAt sample oracle (k + 1)).length ≤ (histAt sample oracle k).length + 1) ∧
    (∀ k, statusAt sample oracle k = Status.OK →
      histAt sample oracle (k + 1) = histAt sample oracle k) ∧
    (∀ k, statusAt sample oracle k ≠ Status.OK →
      (histAt sample oracle (k + 1)).length = (histAt sample oracle k).length + 1) ∧
    (∃ n, n ≤ T ∧ (refinement_loop T sample oracle).history = histAt sample oracle n) ∧
    (refinement_loop T sample oracle).history.length ≤ T := by
  have hstep : ∀ k, histAt sample oracle (k + 1) = histAt sample oracle k ∨
      ∃ e, histAt sample oracle (k + 1) = histAt sample oracle k ++ [e] := by
    intro k
    cases hst : statusAt sample oracle k with
    | OK => exact Or.inl (histAt_succ_ok sample oracle k hst)
    | ERR_LG => exact Or.inr ⟨_, histAt_succ_lg sample oracle k hst⟩
    | ERR_TOOL => exact Or.inr ⟨_, histAt_succ_tool sample oracle k hst⟩
  have hfinal : ∃ n, n ≤ T ∧
      (refinement_loop T sample oracle).history = histAt sample oracle n := by
    have hchar := loopFrom_char sample oracle T 0 [] []
    have hrw : refinement_loop T sample oracle
        = loopFrom sample oracle 0 T (histAt sample oracle 0) [] [] := rfl
    cases hfo : firstOKFrom sample oracle 0 T with
    | some m =>
      obtain ⟨-, h2, -⟩ := hchar.1 m hfo
      obtain ⟨-, hmT, -, -⟩ := firstOKFrom_some sample oracle T 0 m hfo
      exact ⟨m, by omega, by rw [hrw, h2]⟩
    | none =>
      obtain ⟨-, h2, -⟩ := hchar.2 hfo
      exact ⟨T, Nat.le_refl T, by rw [hrw, h2, Nat.zero_add]⟩
  refine ⟨fun k => ?_, fun k => ?_, fun k h => histAt_succ_ok sample oracle k h,
    fun k h => ?_, hfinal, ?_⟩
  · rcases hstep k with h | ⟨e, h⟩
    · rw [h]
    · rw [h]
      exact ⟨[e], rfl⟩
  · rcases hstep k with h | ⟨e, h⟩ <;> rw [h] <;> simp
  · cases hst : statusAt sample oracle k with
    | OK => exact absurd hst h
    | ERR_LG =>
      rw [histAt_succ_lg sample oracle k hst]
      simp
    | ERR_TOOL =>
      rw [histAt_succ_tool sample oracle k hst]
      simp
  · obtain ⟨n, hn, he⟩ := hfinal
    rw [he]
    exact Nat.le_trans (histAt_length_le sample oracle n) hn

/-- C5 witness: with an always-failing oracle, iteration 1 appends exactly
one entry, and a budget of 3 bounds the final history length. -/
theorem history_append_only_w :
    (histAt exSample exOracleLG 2).length = (histAt exSample exOracleLG 1).length + 1 ∧
    (refinement_loop 3 exSample exOracleLG).history.length ≤ 3 :=
  ⟨(history_append_only 3 exSample exOracleLG).2.2.2.1 1 (by decide),
    (history_append_only 3 exSample exOracleLG).2.2.2.2.2⟩

/-- Unrolling `firstIdx` by one position. -/
theorem firstIdx_succ (Q : Nat → Bool) (n : Nat) :
    firstIdx Q (n + 1)
      = if Q 0 = true then some 0 else (firstIdx (fun i => Q (i + 1)) n).map (· + 1) := by
  unfold firstIdx
  rw [List.range_succ_eq_map]
  by_cases h : Q 0 = true
  · rw [if_pos h, List.find?_cons_of_pos _ h]
  · rw [if_neg h, List.find?_cons_of_neg _ h, List.find?_map]
    rfl

/-- A left-to-right scanner that returns a function of the first suffix
satisfying `P` equals the position-based first-index search. -/
theorem scan_firstIdx {α : Type} (P : Str → Bool) (g : Str → α) (scan : Str → Option α)
    (hnil : scan [] = none)
    (hcons : ∀ c cs, scan (c :: cs)
      = if P (c :: cs) = true then some (g (c :: cs)) else scan cs) :
    ∀ out : Str, scan out
      = (firstIdx (fun i => P (out.drop i)) out.length).map (fun i => g (out.drop i)) := by
  intro out
  induction out with
  | nil => rw [hnil]; rfl
  | cons c cs ih =>
    rw [hcons, List.length_cons, firstIdx_succ]
    by_cases h : P (c :: cs) = true
    · rw [if_pos h, if_pos (show P ((c :: cs).drop 0) = true from h)]
      rfl
    · rw [if_neg h, if_neg (show ¬ P ((c :: cs).drop 0) = true from h), ih, Option.map_map]
      simp only [List.drop_succ_cons]
      rfl

/-- The spec-side compiler-error piece agrees with the source scanner
`find_error_line`. -/
theorem specErrorPiece_eq (out : Str) :
    specErrorPiece out
      = (find_error_line out).map (fun g => "Compiler Error: ".toList ++ g) := by
  have h := scan_firstIdx
    (fun s => startsWith "error:".toList s || startsWith "Error:".toList s)
    (fun s => takeToEol ((s.drop 6).dropWhile isWhite))
    find_error_line rfl (fun c cs => rfl) out
  rw [h, Option.map_map]
  simp only [specErrorPiece, matchesAt, Function.comp, List.drop_drop]
  rfl

/-- The take-until-blank-line block agrees with the position-based search
for the first blank line. -/
theorem upToBlank_take : ∀ s : Str,
    upToBlank s
      = s.take ((firstIdx (fun i => startsWith "\n\n".toList (s.drop i)) s.length).getD
          s.length) := by
  intro s
  induction s with
  | nil => rfl
  | cons c cs ih =>
    rw [List.length_cons, firstIdx_succ]
    by_cases h : startsWith "\n\n".toList (c :: cs) = true
    · simp only [upToBlank]
      rw [if_pos h, if_pos (show startsWith "\n\n".toList ((c :: cs).drop 0) = true from h)]
      rfl
    · simp only [upToBlank]
      rw [if_neg h,
        if_neg (show ¬ startsWith "\n\n".toList ((c :: cs).drop 0) = true from h), ih]
      simp only [List.drop_succ_cons]
      cases hf : firstIdx (fun i => startsWith "\n\n".toList (cs.drop i)) cs.length with
      | none => simp [List.take_succ_cons]
      | some j => simp [List.take_succ_cons]

/-- The spec-side proof-state piece agrees with the source's
`findAfter`/`upToBlank` extraction. -/
theorem specGoalsPiece_eq (out : Str) :
    specGoalsPiece out
      = (findAfter "unsolved goals\n".toList out).map
          (fun rest => "Proof State at Failure:\n".toList
            ++ truncateSnippet (strip (upToBlank rest))) := by
  have h := scan_firstIdx (fun s => startsWith "unsolved goals\n".toList s)
    (fun s => s.drop 15) (findAfter "unsolved goals\n".toList) rfl (fun c cs => rfl) out
  rw [h, Option.map_map]
  simp only [specGoalsPiece]
  congr 1
  funext i
  simp only [Function.comp_apply]
  rw [upToBlank_take ((out.drop i).drop 15)]
  rw [show (out.drop i).drop 15 = out.drop (i + 15) from List.drop_drop 15 i out]
  rfl

/-- A prefix of a prefix: matching `pat ++ ext` at the head in particular
matches `pat`. -/
theorem startsWith_append_left : ∀ p q s : Str,
    startsWith (p ++ q) s = true → startsWith p s = true := by
  intro p
  induction p with
  | nil => intro q s _; rfl
  | cons x xs ih =>
    intro q s h
    cases s with
    | nil => exact absurd h (by simp [startsWith])
    | cons c cs =>
      simp only [List.cons_append, startsWith, Bool.and_eq_true] at h ⊢
      exact ⟨h.1, ih q cs h.2⟩

/-- When the suffix search for `pat ++ ext` succeeds, `pat` occurs as a
substring. -/
theorem findAfter_some_contains : ∀ (pat ext s r : Str),
    findAfter (pat ++ ext) s = some r → containsSub pat s = true := by
  intro pat ext s
  induction s with
  | nil =>
    intro r h
    by_cases hs : startsWith (pat ++ ext) [] = true
    · have h1 : startsWith pat [] = true := startsWith_append_left pat ext [] hs
      simp [containsSub, h1]
    · rw [findAfter, if_neg hs] at h
      exact absurd h (by simp)
  | cons c cs ih =>
    intro r h
    by_cases hs : startsWith (pat ++ ext) (c :: cs) = true
    · have h1 : startsWith pat (c :: cs) = true := startsWith_append_left pat ext _ hs
      simp [containsSub, h1]
    · rw [findAfter, if_neg hs] at h
      have h1 := ih r h
      simp [containsSub, h1]

/-- Amended C9.  For every output analysed as a logical error, the feedback
string is the newline-joined concatenation, in order, of whichever pieces
were produced — the first substring following a marker spelled exactly
"error:" or "Error:" (prefixed "Compiler Error:"); the text block between
the phrase "unsolved goals" plus its following newline and the next blank
line (or end of output), truncated to 1000 characters, produced only when
that phrase-plus-newline occurs; and, only if neither extraction produced
content, the last 800 characters as a raw tail. -/
theorem extract_error_context_eq (out : Str) :
    extract_error_context out = extract_error_context_spec out := by
  have hga : "unsolved goals".toList ++ "\n".toList = "unsolved goals\n".toList := by decide
  simp only [extract_error_context, extract_error_context_spec, assembleFeedback,
    specErrorPiece_eq, specGoalsPiece_eq]
  by_cases hc : containsSub "unsolved goals".toList out = true
  · rw [if_pos hc]
    cases hfe : find_error_line out <;>
      cases hfa : findAfter "unsolved goals\n".toList out <;>
        simp
  · have hcf : containsSub "unsolved goals".toList out = false := by
      cases hcc : containsSub "unsolved goals".toList out
      · rfl
      · exact absurd hcc hc
    rw [if_neg hc]
    have hfa : findAfter "unsolved goals\n".toList out = none := by
      cases hfa : findAfter "unsolved goals\n".toList out with
      | none => rfl
      | some r =>
        have h1 := findAfter_some_contains "unsolved goals".toList "\n".toList out r
          (by rw [hga]; exact hfa)
        rw [h1] at hcf
        exact absurd hcf (by simp)
    rw [hfa]
    cases hfe : find_error_line out <;> simp

/-- C9 counterexample: on the classifier output
"ERROR: bad\nblah unsolved goals" (nonzero exit, no tool indicator), the
claim's case-insensitive marker and presence-gated goal block predict
"Compiler Error: bad" plus an empty proof-state block, but the code matches
neither exact marker casing nor the phrase-plus-newline gate and falls back
to the raw 800-character tail. -/
theorem extract_error_context_claim_cex :
    extract_error_context exC9 ≠ extract_error_context_claim exC9 ∧
    extract_error_context exC9
      = "Raw Output Tail:\nERROR: bad\nblah unsolved goals".toList ∧
    extract_error_context_claim exC9
      = "Compiler Error: bad\nProof State at Failure:\n".toList :=
  ⟨by decide, by decide, by decide⟩

end FormalSDD
